import Mathlib

/-!
Verification of the orchestration core of the `web_search_agent` repository.

The Python sources are embedded shallowly:

* `search_ranking` models `src/web_search_agent/search_ranking.py`;
* `research` models the ranking helpers of `src/app/agents/research.py`;
* `runtime` models the evidence-assembly helpers of `src/app/runtime.py`;
* `orchestrator` models `src/app/orchestrator.py`;
* `main` models the async task-lifecycle status writes of `src/app/main.py`.

Python floats are modelled as rationals, Python `sorted` (a stable sort) as
`List.insertionSort` (which Mathlib proves stable), exceptions as `Except`,
and stateful loops as structural recursion with explicit traces.
-/

/-- Python `a or b` on strings: returns `b` when `a` is empty (falsy), else `a`. -/
def pyOr (a b : String) : String := if a = "" then b else a

/-- ASCII lowercasing of one character, as Python `str.lower` acts on ASCII. -/
def pyLowerChar (c : Char) : Char :=
  if 'A' ≤ c ∧ c ≤ 'Z' then Char.ofNat (c.toNat + 32) else c

/-- Python `str.lower()`; all depth labels in the source are ASCII. -/
def pyLower (s : String) : String := ⟨s.data.map pyLowerChar⟩

/-- ASCII uppercasing of one character, as Python `str.upper` acts on ASCII. -/
def pyUpperChar (c : Char) : Char :=
  if 'a' ≤ c ∧ c ≤ 'z' then Char.ofNat (c.toNat - 32) else c

/-- Python `str.upper()`; the source-type labels in the source are ASCII. -/
def pyUpper (s : String) : String := ⟨s.data.map pyUpperChar⟩

namespace search_ranking

/-- Enum `SourceType` from `src/web_search_agent/models.py`. -/
inductive SourceType where
  | official
  | reporting
  | community
  | unknown
deriving DecidableEq

/-- Dict `SOURCE_WEIGHTS` from `search_ranking.py` (total on the enum). -/
def SOURCE_WEIGHTS : SourceType → ℚ
  | .official => 5/4
  | .reporting => 1
  | .community => 7/10
  | .unknown => 3/5

/-- Dict `PREFERENCE_BONUS` from `search_ranking.py` (total on the enum). -/
def PREFERENCE_BONUS : SourceType → ℚ
  | .official => 3/20
  | .reporting => 1/20
  | .community => -(1/20)
  | .unknown => -(1/10)

/-- Dataclass `SearchResult` from `search_ranking.py`. -/
structure SearchResult where
  title : String
  url : String
  snippet : String
  source_type : SourceType := .unknown
  base_score : ℚ := 1
deriving DecidableEq

/-- Method `SearchResult.weighted_score`.  Both dict lookups hit existing keys
for every enum member, so the `.get` defaults never fire here. -/
def SearchResult.weighted_score (r : SearchResult) : ℚ :=
  r.base_score * SOURCE_WEIGHTS r.source_type + PREFERENCE_BONUS r.source_type

/-- Function `rank_search_results`: drop disallowed source types, then
`sorted(..., key=weighted_score, reverse=True)`, i.e. a stable descending
sort by weighted score (insertion sort with the reversed comparison is
exactly that stable sort). -/
def rank_search_results (results : List SearchResult)
    (disallowed_types : List SourceType) : List SearchResult :=
  let filtered_results :=
    results.filter (fun result => decide (result.source_type ∉ disallowed_types))
  filtered_results.insertionSort
    (fun a b => b.weighted_score ≤ a.weighted_score)

end search_ranking

namespace research

/-- Dataclass `SearchResult` from `src/app/tools/web_search.py`: here
`source_type` is a free-form string label. -/
structure SearchResult where
  title : String
  url : String
  snippet : String
  source_type : String := "unknown"
deriving DecidableEq

/-- List `SOURCE_PREFERENCE_ORDER` from `src/app/agents/research.py`. -/
def SOURCE_PREFERENCE_ORDER : List String :=
  ["primary", "regulator", "filing", "official", "analyst", "news", "community", "unknown"]

/-- The rank used by `ResearchAgent._filter_by_preference`:
`{label: index for index, label in enumerate(SOURCE_PREFERENCE_ORDER)}`
queried with `.get(source_type, len(SOURCE_PREFERENCE_ORDER))`. -/
def preference_rank (source_type : String) : Nat :=
  match SOURCE_PREFERENCE_ORDER.findIdx? (fun label => label == source_type) with
  | some index => index
  | none => SOURCE_PREFERENCE_ORDER.length

/-- Method `ResearchAgent._filter_by_preference`: Python `sorted` by the
preference rank (stable ascending sort). -/
def filter_by_preference (results : List SearchResult) : List SearchResult :=
  results.insertionSort
    (fun a b => preference_rank a.source_type ≤ preference_rank b.source_type)

/-- The conversion inside `ResearchAgent._rank.to_ranked`:
`getattr(SourceType, result.source_type.upper(), SourceType.UNKNOWN)` —
an uppercase label matching an enum member name selects that member,
anything else falls back to `UNKNOWN`. -/
def toRankedSourceType (label : String) : search_ranking.SourceType :=
  if pyUpper label = "OFFICIAL" then .official
  else if pyUpper label = "REPORTING" then .reporting
  else if pyUpper label = "COMMUNITY" then .community
  else if pyUpper label = "UNKNOWN" then .unknown
  else .unknown

/-- Function `to_ranked` inside `ResearchAgent._rank`: rebuilds the result as
a `search_ranking.SearchResult` (the `base_score` field keeps its default). -/
def to_ranked (result : SearchResult) : search_ranking.SearchResult :=
  { title := result.title
    url := result.url
    snippet := result.snippet
    source_type := toRankedSourceType result.source_type }

end research

namespace runtime

/-- One research-pass result as consumed by `_build_findings` /
`_select_citations` in `src/app/runtime.py`: only the
`result["results"]["preferred"]` list is accessed. -/
structure PassResult where
  preferred : List research.SearchResult
deriving DecidableEq

/-- Model `Finding` from `src/app/schemas.py` (fields used by runtime.py). -/
structure Finding where
  id : String
  title : String
  type : String
  relevance : String
  source_url : String
  source_name : String
  snippet : String
  key_points : List String
deriving DecidableEq

/-- Model `Evidence` from `src/app/schemas.py` (fields used by runtime.py). -/
structure Evidence where
  id : String
  claim : String
  excerpt : String
  source_id : String
  source_url : String
  confidence : String
deriving DecidableEq

/-- The `Finding(...)` constructed in the inner loop of `_build_findings`
for one preferred item, given the current counter value. -/
def mkFinding (counter : Nat) (item : research.SearchResult) : Finding :=
  { id := "F" ++ toString counter
    title := pyOr item.title "Finding"
    type := "web"
    relevance := "medium"
    source_url := item.url
    source_name := pyOr item.title ""
    snippet := item.snippet
    key_points := if item.snippet = "" then [] else [item.snippet] }

/-- Inner loop of `_build_findings` over one pass's preferred items,
threading the counter; returns the findings plus the next counter value. -/
def findingsForPass : Nat → List research.SearchResult → List Finding × Nat
  | counter, [] => ([], counter)
  | counter, item :: rest =>
    let next := findingsForPass (counter + 1) rest
    (mkFinding counter item :: next.1, next.2)

/-- Outer loop of `_build_findings` over the research pass results. -/
def buildFindingsGo : Nat → List PassResult → List Finding
  | _, [] => []
  | counter, result :: rest =>
    let pass := findingsForPass counter result.preferred
    pass.1 ++ buildFindingsGo pass.2 rest

/-- Function `_build_findings` from `src/app/runtime.py`: sequential counter
starting at 1, traversal order first pass first, first item first. -/
def build_findings (research_results : List PassResult) : List Finding :=
  buildFindingsGo 1 research_results

/-- Function `_build_evidence` from `src/app/runtime.py`. -/
def build_evidence (findings : List Finding) : List Evidence :=
  findings.map (fun finding =>
    { id := "E" ++ finding.id
      claim := match finding.key_points with
        | point :: _ => point
        | [] => pyOr finding.snippet finding.title
      excerpt := pyOr finding.snippet ""
      source_id := finding.id
      source_url := finding.source_url
      confidence := "medium" })

end runtime

namespace orchestrator

/-- Dataclass `NormalizedRequest` from `src/app/orchestrator.py`; metadata is
a Python dict from string keys to arbitrary values (type parameter `μ`). -/
structure NormalizedRequest (μ : Type) where
  query : String
  metadata : List (String × μ)
deriving DecidableEq

/-- Python dict merge `{**a, **b}`: keys of `a` in their order with values
overridden by `b`, then the keys of `b` that are new, in their order. -/
def dict_merge {μ : Type} (a b : List (String × μ)) : List (String × μ) :=
  a.map (fun p => match b.find? (fun q => q.1 == p.1) with
    | some q => (p.1, q.2)
    | none => p)
  ++ b.filter (fun q => !(a.any (fun p => p.1 == q.1)))

/-- Method `NormalizedRequest.with_updates`. -/
def NormalizedRequest.with_updates {μ : Type} (r : NormalizedRequest μ)
    (updates : List (String × μ)) : NormalizedRequest μ :=
  ⟨r.query, dict_merge r.metadata updates⟩

/-- Dataclass `RouterDecision`. -/
structure RouterDecision where
  purpose : String
  depth : String
  needs_clarification : Bool := false
  profile : Option String := none
  need_deep_research : Bool := false
deriving DecidableEq

/-- Dataclass `ResearchTask`. -/
structure ResearchTask where
  task_id : String
  pass_index : Nat
  notes : String := ""
  status : String := "pending"
deriving DecidableEq

/-- Dataclass `ResearchPlan`. -/
structure ResearchPlan where
  passes : Nat
  persistent_task : Bool
  search_profile : String
  tasks : List ResearchTask := []
deriving DecidableEq

/-- Class `DepthPolicy`; its `__init__` stores `depth.lower()`. -/
structure DepthPolicy where
  depth : String
deriving DecidableEq

/-- Constructor `DepthPolicy(depth)`. -/
def DepthPolicy.ofDepth (depth : String) : DepthPolicy := ⟨pyLower depth⟩

/-- Method `DepthPolicy.build_plan`. -/
def DepthPolicy.build_plan (self : DepthPolicy) : ResearchPlan :=
  if self.depth = "quick" then
    { passes := 1
      persistent_task := false
      search_profile := "minimal_search" }
  else if self.depth = "deep" then
    { passes := 3
      persistent_task := true
      search_profile := "multi_pass_search_with_synthesis"
      tasks := [{ task_id := "persistent-task-0", pass_index := 0,
                  notes := "init", status := "created" }] }
  else
    { passes := 2
      persistent_task := false
      search_profile := "iterative_search" }

/-- Dataclass `RetryConfig` (floats modelled as rationals). -/
structure RetryConfig where
  max_attempts : Nat := 3
  backoff_factor : ℚ := 1/2
  timeout_seconds : ℚ := 300
deriving DecidableEq

/-- One raised Python exception, reduced to what `_call_with_controls`
observes: `type(exc).__name__` and `str(exc)`.  A stage timeout surfaces as
an ordinary exception (`TimeoutError`), both branches store it identically. -/
structure PyError where
  exc_type : String
  exc_msg : String
deriving DecidableEq

/-- Exception `OrchestrationError`, reduced to its message. -/
structure OrchestrationError where
  message : String
deriving DecidableEq

/-- Observable outcome of one `_call_with_controls` invocation: the returned
value or raised `OrchestrationError`, the number of attempts made, and the
duration of each `time.sleep` performed between attempts, in order. -/
structure ExecTrace (α : Type) where
  result : Except OrchestrationError α
  attemptsMade : Nat
  sleeps : List ℚ

/-- The aggregated error raised after the retry loop exhausts
`max_attempts`:
`f"{stage} agent failed after {max_attempts} attempts: {error_type}: {error_msg}"`. -/
def aggregatedError (cfg : RetryConfig) (stage : String) :
    Option PyError → OrchestrationError
  | some exc =>
    ⟨stage ++ " agent failed after " ++ toString cfg.max_attempts ++ " attempts: "
      ++ exc.exc_type ++ ": " ++ exc.exc_msg⟩
  | none =>
    ⟨stage ++ " agent failed after " ++ toString cfg.max_attempts
      ++ " attempts: UnknownError: Unknown error"⟩

/-- The `while attempt < max_attempts` loop of `_call_with_controls`.
`op n` is the outcome of the `n`-th attempt of the wrapped operation
(attempts counted from 1); `fuel` equals `max_attempts - attempt` so the
loop condition holds exactly while `fuel > 0`.  After a failed attempt the
loop sleeps `backoff_factor * 2 ** (attempt - 1)` only when another attempt
remains. -/
def retryLoop {α : Type} (cfg : RetryConfig) (stage : String)
    (op : Nat → Except PyError α) :
    Nat → Nat → Option PyError → ExecTrace α
  | 0, attempt, last_error =>
    ⟨.error (aggregatedError cfg stage last_error), attempt, []⟩
  | fuel + 1, attempt, _ =>
    match op (attempt + 1) with
    | .ok result => ⟨.ok result, attempt + 1, []⟩
    | .error exc =>
      let rest := retryLoop cfg stage op fuel (attempt + 1) (some exc)
      if attempt + 1 < cfg.max_attempts then
        { rest with sleeps := cfg.backoff_factor * 2 ^ attempt :: rest.sleeps }
      else rest

/-- Method `Orchestrator._call_with_controls` (the stage executor). -/
def callWithControls {α : Type} (cfg : RetryConfig) (stage : String)
    (op : Nat → Except PyError α) : ExecTrace α :=
  retryLoop cfg stage op cfg.max_attempts 0 none

/-- Model `QualityReport` from `src/app/schemas.py`. -/
structure QualityReport where
  citation_coverage_score : ℚ
  template_completeness_score : ℚ
  missing_sections : List String := []
  section_coverage : Option (List (String × ℚ)) := none
  uncited_numbers : Bool := false
  contradictions : Bool := false
  semantic_citation_score : Option ℚ := none
  broken_urls : List String := []
  low_relevance_citations : List String := []
  citation_relevance_map : Option (List (String × ℚ)) := none
deriving DecidableEq

/-- The value found under `written_output.get("quality")`: either an actual
`QualityReport` instance (then `isinstance(quality, QualityReport)` holds) or
anything else, including absence — the code treats all non-instances alike. -/
inductive QualityValue where
  | report (q : QualityReport)
  | nonReport
deriving DecidableEq

/-- The neutral placeholder `QualityReport(...)` built by `Orchestrator.run`
when the writer output carries no quality report. -/
def neutral_quality_report : QualityReport :=
  { citation_coverage_score := 8/10
    template_completeness_score := 7/10
    missing_sections := []
    section_coverage := none
    uncited_numbers := false
    contradictions := false
    semantic_citation_score := none
    broken_urls := []
    low_relevance_citations := []
    citation_relevance_map := none }

/-- The `written_output["quality"]` reassignment in `Orchestrator.run`. -/
def resolve_quality : QualityValue → QualityReport
  | .report q => q
  | .nonReport => neutral_quality_report

/-- The `writer_payload` dict passed to the writer agent. -/
structure WriterPayload (μ ρ : Type) where
  router : RouterDecision
  plan : ResearchPlan
  research : List ρ
  request : NormalizedRequest μ

/-- The writer agent's returned dict, split into its `"quality"` entry and
the rest of its payload (type parameter `ω`), which `run` passes through. -/
structure WrittenOutput (ω : Type) where
  quality : QualityValue
  payload : ω
deriving DecidableEq

/-- The writer output after `run` replaced `written_output["quality"]` by an
actual `QualityReport`. -/
structure FinalOutput (ω : Type) where
  quality : QualityReport
  payload : ω
deriving DecidableEq

/-- The dict returned by `Orchestrator.run`. -/
structure RunResult (μ ρ ω : Type) where
  decision : RouterDecision
  plan : ResearchPlan
  research_results : List ρ
  output : FinalOutput ω

/-- Class `Orchestrator`: the four agents (the clarifier optional), each
modelled as a function of its Python arguments plus the attempt number
(`Nat`), returning a value or a raised exception per attempt. -/
structure Orchestrator (μ ρ ω : Type) where
  router_agent : NormalizedRequest μ → Nat → Except PyError RouterDecision
  clarifier_agent :
    Option (NormalizedRequest μ → RouterDecision → Nat → Except PyError μ)
  researcher_agent : NormalizedRequest μ → RouterDecision → ResearchPlan →
    Nat → Option ResearchTask → Nat → Except PyError ρ
  writer_agent : WriterPayload μ ρ → Nat → Except PyError (WrittenOutput ω)
  retry_config : RetryConfig := {}

/-- A stage invocation through `_call_with_controls`, keeping only the
value/raise outcome. -/
def Orchestrator.call_with_controls {μ ρ ω α : Type} (o : Orchestrator μ ρ ω)
    (stage : String) (op : Nat → Except PyError α) :
    Except OrchestrationError α :=
  (callWithControls o.retry_config stage op).result

/-- Lines 125-133 of `Orchestrator.run`: clarify only when
`needs_clarification` is set and a clarifier agent is configured, merging the
clarification into the request metadata. -/
def Orchestrator.clarifiedRequest {μ ρ ω : Type} (o : Orchestrator μ ρ ω)
    (request : NormalizedRequest μ) (decision : RouterDecision) :
    Except OrchestrationError (NormalizedRequest μ) :=
  if decision.needs_clarification then
    match o.clarifier_agent with
    | some clarifier =>
      (o.call_with_controls "clarifier" (clarifier request decision)).map
        (fun clarification => request.with_updates [("clarification", clarification)])
    | none => .ok request
  else .ok request

/-- Method `Orchestrator.run`.  The research loop
`for idx in range(plan.passes)` appending each pass result is
`(List.range plan.passes).mapM`; the persisted task is
`plan.tasks[0] if plan.tasks else None`. -/
def Orchestrator.run {μ ρ ω : Type} (o : Orchestrator μ ρ ω)
    (request : NormalizedRequest μ) :
    Except OrchestrationError (RunResult μ ρ ω) := do
  let router_decision ← o.call_with_controls "router" (o.router_agent request)
  let plan := (DepthPolicy.ofDepth router_decision.depth).build_plan
  let clarified_request ← o.clarifiedRequest request router_decision
  let persisted_task := plan.tasks.head?
  let research_results ← (List.range plan.passes).mapM (fun idx =>
    o.call_with_controls "researcher"
      (o.researcher_agent clarified_request router_decision plan idx persisted_task))
  let written_output ← o.call_with_controls "writer"
    (o.writer_agent ⟨router_decision, plan, research_results, clarified_request⟩)
  pure ⟨router_decision, plan, research_results,
    ⟨resolve_quality written_output.quality, written_output.payload⟩⟩

/-- An orchestrator identical to `o` except that its writer output carries no
quality report (models composition output lacking a quality assessment). -/
def stripQuality {μ ρ ω : Type} (o : Orchestrator μ ρ ω) : Orchestrator μ ρ ω :=
  { o with writer_agent := fun payload attempt =>
      (o.writer_agent payload attempt).map (fun w => ⟨.nonReport, w.payload⟩) }

/-- A concrete quality report used by the demonstration writer agent. -/
def demoQuality : QualityReport :=
  { citation_coverage_score := 1, template_completeness_score := 1 }

/-- A concrete routing decision produced by the demonstration router agent. -/
def demoDecision : RouterDecision :=
  { purpose := "research", depth := "DEEP", needs_clarification := true }

/-- A concrete orchestrator over `μ = String`, `ρ = Nat`, `ω = String` whose
agents all succeed on the first attempt. -/
def demoOrchestrator : Orchestrator String Nat String :=
  { router_agent := fun _ _ => .ok demoDecision
    clarifier_agent := some (fun _ _ _ => .ok "clarified")
    researcher_agent := fun _ _ _ idx _ _ => .ok (100 + idx)
    writer_agent := fun _ _ => .ok ⟨.report demoQuality, "document"⟩ }

/-- The demonstration orchestrator with a writer that returns no quality
report. -/
def demoOrchestratorNoQuality : Orchestrator String Nat String :=
  { demoOrchestrator with writer_agent := fun _ _ => .ok ⟨.nonReport, "document"⟩ }

/-- A concrete normalized request. -/
def demoRequest : NormalizedRequest String := ⟨"query", [("controls", "c")]⟩

/-- The research plan built for depth "deep". -/
def demoPlanDeep : ResearchPlan :=
  { passes := 3
    persistent_task := true
    search_profile := "multi_pass_search_with_synthesis"
    tasks := [{ task_id := "persistent-task-0", pass_index := 0,
                notes := "init", status := "created" }] }

/-- The run result of `demoOrchestrator` on `demoRequest`. -/
def demoRun : RunResult String Nat String :=
  ⟨demoDecision, demoPlanDeep, [100, 101, 102], ⟨demoQuality, "document"⟩⟩

/-- The run result of `demoOrchestratorNoQuality` on `demoRequest`. -/
def demoRunNoQuality : RunResult String Nat String :=
  ⟨demoDecision, demoPlanDeep, [100, 101, 102], ⟨neutral_quality_report, "document"⟩⟩

end orchestrator

namespace main

/-- Enum `TaskStatus` from `src/app/schemas.py`. -/
inductive TaskStatus where
  | queued
  | pending
  | running
  | writing
  | validating
  | completed
  | failed
deriving DecidableEq

/-- The sequence of status values written to the task map (`_tasks[task_id]`)
by `create_research_job` followed by its background `_process_task`, in
program order.

* `running_save_ok` is false when persisting the "running" status raises
  (`_task_storage.save_task` logs and re-raises on database failure); this
  happens before the try-block, so the exception propagates and no further
  status is written.
* `research_ok` is false when the synchronous research / writing work inside
  the try-block raises before the "writing" status write (the deep-research
  polling failure alone is caught internally and degrades to the standard
  path, so it does not by itself make `research_ok` false).
* `completed_save_ok` is false when persisting the "completed" status raises
  inside the try-block, after the "completed" status was already cached. -/
def process_task_trace (running_save_ok research_ok completed_save_ok : Bool) :
    List TaskStatus :=
  TaskStatus.queued ::
  TaskStatus.running ::
  if !running_save_ok then []
  else if !research_ok then [TaskStatus.failed]
  else [TaskStatus.writing, TaskStatus.validating, TaskStatus.completed] ++
    if completed_save_ok then [] else [TaskStatus.failed]

/-- The transition relation asserted by the specification: monotonic along
queued → running → writing → validating → completed, with failed reachable
from any non-terminal state other than queued (a task never moves from
queued directly to a terminal state), and no transition out of completed or
failed. -/
def spec_allows (a b : TaskStatus) : Prop :=
  (a = .queued ∧ b = .running) ∨
  (a = .running ∧ b = .writing) ∨
  (a = .writing ∧ b = .validating) ∨
  (a = .validating ∧ b = .completed) ∨
  ((a = .running ∨ a = .writing ∨ a = .validating) ∧ b = .failed)

/-- The transition relation the code actually realises: the specified one
plus completed → failed, which occurs when persisting the completed state
raises. -/
def code_allows (a b : TaskStatus) : Prop :=
  spec_allows a b ∨ (a = .completed ∧ b = .failed)

end main

/-!
Theorems.  Each claim of the specification is settled by one theorem below,
stated over the embedded definitions above.
-/

/-- C2: `DepthPolicy.build_plan` is a total, case-insensitive function of the
depth label: "quick" yields 1 pass, no persistence, profile
"minimal_search" and no tasks; "deep" yields 3 passes, persistence, profile
"multi_pass_search_with_synthesis" and exactly one seeded task with
`pass_index = 0` and status "created"; every other label (including
"standard") yields 2 passes, no persistence, profile "iterative_search" and
no tasks.  Totality is inherent: `build_plan` is a Lean function, defined on
every string. -/
theorem depth_policy_total (depth : String) :
    (pyLower depth = "quick" →
      (orchestrator.DepthPolicy.ofDepth depth).build_plan =
        { passes := 1, persistent_task := false,
          search_profile := "minimal_search", tasks := [] }) ∧
    (pyLower depth = "deep" →
      (orchestrator.DepthPolicy.ofDepth depth).build_plan =
        { passes := 3, persistent_task := true,
          search_profile := "multi_pass_search_with_synthesis",
          tasks := [{ task_id := "persistent-task-0", pass_index := 0,
                      notes := "init", status := "created" }] }) ∧
    (pyLower depth ≠ "quick" → pyLower depth ≠ "deep" →
      (orchestrator.DepthPolicy.ofDepth depth).build_plan =
        { passes := 2, persistent_task := false,
          search_profile := "iterative_search", tasks := [] }) := by
  refine ⟨fun h => ?_, fun h => ?_, fun h1 h2 => ?_⟩ <;>
    simp [orchestrator.DepthPolicy.ofDepth, orchestrator.DepthPolicy.build_plan, *]

/-- Witness for C2 at the concrete labels "QuIcK", "DEEP" and
"anything-unrecognized". -/
theorem depth_policy_total_witness :
    (orchestrator.DepthPolicy.ofDepth "QuIcK").build_plan =
      { passes := 1, persistent_task := false,
        search_profile := "minimal_search", tasks := [] } ∧
    (orchestrator.DepthPolicy.ofDepth "DEEP").build_plan =
      { passes := 3, persistent_task := true,
        search_profile := "multi_pass_search_with_synthesis",
        tasks := [{ task_id := "persistent-task-0", pass_index := 0,
                    notes := "init", status := "created" }] } ∧
    (orchestrator.DepthPolicy.ofDepth "anything-unrecognized").build_plan =
      { passes := 2, persistent_task := false,
        search_profile := "iterative_search", tasks := [] } :=
  ⟨(depth_policy_total "QuIcK").1 (by decide),
   (depth_policy_total "DEEP").2.1 (by decide),
   (depth_policy_total "anything-unrecognized").2.2 (by decide) (by decide)⟩

/-- C5: `rank_search_results` never returns a result whose source type is in
the caller-supplied disallow set, orders its output by descending weighted
score, and the weighted score is the base relevance score times the
source-type weight plus the source-type preference bonus. -/
theorem rank_search_results_spec (results : List search_ranking.SearchResult)
    (disallowed_types : List search_ranking.SourceType) :
    (∀ r ∈ search_ranking.rank_search_results results disallowed_types,
      r.source_type ∉ disallowed_types) ∧
    (search_ranking.rank_search_results results disallowed_types).Pairwise
      (fun a b => b.weighted_score ≤ a.weighted_score) ∧
    (∀ r : search_ranking.SearchResult,
      r.weighted_score =
        r.base_score * search_ranking.SOURCE_WEIGHTS r.source_type +
          search_ranking.PREFERENCE_BONUS r.source_type) := by
  refine ⟨fun r hr => ?_, ?_, fun r => rfl⟩
  · rw [search_ranking.rank_search_results] at hr
    have hr' := List.mem_insertionSort _ |>.mp hr
    have := List.mem_filter.mp hr'
    exact of_decide_eq_true this.2
  · rw [search_ranking.rank_search_results]
    letI : IsTotal search_ranking.SearchResult
        (fun a b => b.weighted_score ≤ a.weighted_score) :=
      ⟨fun a b => le_total b.weighted_score a.weighted_score⟩
    letI : IsTrans search_ranking.SearchResult
        (fun a b => b.weighted_score ≤ a.weighted_score) :=
      ⟨fun _ _ _ hab hbc => le_trans hbc hab⟩
    exact List.sorted_insertionSort _ _

/-- Witness for C5 on a concrete two-element input with a disallowed type:
the surviving result, a member of the ranked output, has an allowed type. -/
theorem rank_search_results_spec_witness :
    (⟨"t1", "u1", "s1", .official, 1⟩ : search_ranking.SearchResult).source_type ∉
      ([.community] : List search_ranking.SourceType) :=
  (rank_search_results_spec
      [⟨"t1", "u1", "s1", .official, 1⟩, ⟨"t2", "u2", "s2", .community, 1⟩]
      [.community]).1
    ⟨"t1", "u1", "s1", .official, 1⟩ (by decide)

/-- C10: with an empty disallow set, `rank_search_results` returns a
permutation of its input — nothing is dropped, duplicated or modified, the
results are only reordered. -/
theorem rank_search_results_perm (results : List search_ranking.SearchResult) :
    (search_ranking.rank_search_results results []).Perm results := by
  rw [search_ranking.rank_search_results]
  have hf : results.filter
      (fun r => decide (r.source_type ∉ ([] : List search_ranking.SourceType))) =
      results := by
    apply List.filter_eq_self.mpr
    intro a _
    simp
  rw [hf]
  exact List.perm_insertionSort _ _

/-- Helper: every label listed in the preference table has a rank strictly
below the table length (its index in the table). -/
theorem preference_rank_lt_of_mem :
    ∀ s ∈ research.SOURCE_PREFERENCE_ORDER,
      research.preference_rank s < research.SOURCE_PREFERENCE_ORDER.length := by
  intro s hs
  fin_cases hs <;> decide

/-- Helper: a label absent from the preference table gets the default rank,
the table length. -/
theorem preference_rank_of_not_mem (label : String)
    (hn : label ∉ research.SOURCE_PREFERENCE_ORDER) :
    research.preference_rank label = research.SOURCE_PREFERENCE_ORDER.length := by
  have hnone : research.SOURCE_PREFERENCE_ORDER.findIdx?
      (fun l => l == label) = none := by
    apply List.findIdx?_eq_none_iff.mpr
    intro x hx
    by_contra hbeq
    have hx' : (x == label) = true := Bool.of_not_eq_false hbeq
    exact hn (beq_iff_eq.mp hx' ▸ hx)
  rw [research.preference_rank, hnone]

/-- C6: the preference-ordering pass is a stable sort by the fixed preference
table: the output is ordered by non-decreasing preference rank, any two
results with identical source type keep their relative input order, and a
"regulator" result never appears after a "news" result. -/
theorem filter_by_preference_stable (results : List research.SearchResult) :
    (research.filter_by_preference results).Pairwise
      (fun a b =>
        research.preference_rank a.source_type ≤
          research.preference_rank b.source_type) ∧
    (∀ a b : research.SearchResult, a.source_type = b.source_type →
      [a, b].Sublist results →
      [a, b].Sublist (research.filter_by_preference results)) ∧
    (∀ i j (hi : i < (research.filter_by_preference results).length)
        (hj : j < (research.filter_by_preference results).length), i < j →
      ((research.filter_by_preference results).get ⟨i, hi⟩).source_type = "news" →
      ((research.filter_by_preference results).get ⟨j, hj⟩).source_type ≠
        "regulator") := by
  have hsorted : (research.filter_by_preference results).Pairwise
      (fun a b =>
        research.preference_rank a.source_type ≤
          research.preference_rank b.source_type) := by
    rw [research.filter_by_preference]
    letI : IsTotal research.SearchResult
        (fun a b =>
          research.preference_rank a.source_type ≤
            research.preference_rank b.source_type) :=
      ⟨fun a b => le_total _ _⟩
    letI : IsTrans research.SearchResult
        (fun a b =>
          research.preference_rank a.source_type ≤
            research.preference_rank b.source_type) :=
      ⟨fun _ _ _ hab hbc => le_trans hab hbc⟩
    exact List.sorted_insertionSort _ _
  refine ⟨hsorted, fun a b hst hsub => ?_, fun i j hi hj hij hni hreg => ?_⟩
  · rw [research.filter_by_preference]
    exact List.pair_sublist_insertionSort (le_of_eq (by rw [hst])) hsub
  · have hle := List.pairwise_iff_get.mp hsorted ⟨i, hi⟩ ⟨j, hj⟩ hij
    rw [hni, hreg] at hle
    have h5 : research.preference_rank "news" = 5 := by decide
    have h1 : research.preference_rank "regulator" = 1 := by decide
    rw [h5, h1] at hle
    omega

/-- Witness for C6: on a concrete list, two same-typed results keep their
input order (as a sublist of the sorted output). -/
theorem filter_by_preference_stable_witness :
    [(⟨"a", "ua", "sa", "news"⟩ : research.SearchResult),
     (⟨"b", "ub", "sb", "news"⟩ : research.SearchResult)].Sublist
      (research.filter_by_preference
        [⟨"a", "ua", "sa", "news"⟩, ⟨"c", "uc", "sc", "regulator"⟩,
         ⟨"b", "ub", "sb", "news"⟩]) :=
  (filter_by_preference_stable
      [⟨"a", "ua", "sa", "news"⟩, ⟨"c", "uc", "sc", "regulator"⟩,
       ⟨"b", "ub", "sb", "news"⟩]).2.1
    ⟨"a", "ua", "sa", "news"⟩ ⟨"b", "ub", "sb", "news"⟩ rfl (by decide)

/-- C7 counterexample: the label "reporting" is not in the preference table,
yet in the weighted scoring pass (which converts the label through
`getattr(SourceType, label.upper(), SourceType.UNKNOWN)`) it maps to the
enum member `REPORTING` and scores 21/20, not the unknown score 1/2 — so an
unlisted label does not always receive the same lowest weighted score as an
"unknown" result. -/
theorem source_unlisted_weight_counterexample :
    "reporting" ∉ research.SOURCE_PREFERENCE_ORDER ∧
    (research.to_ranked ⟨"t", "u", "s", "reporting"⟩).weighted_score ≠
      (research.to_ranked ⟨"t", "u", "s", "unknown"⟩).weighted_score ∧
    (research.to_ranked ⟨"t", "u", "s", "reporting"⟩).weighted_score = 21/20 ∧
    (research.to_ranked ⟨"t", "u", "s", "unknown"⟩).weighted_score = 1/2 := by
  have hrep : research.toRankedSourceType "reporting" = .reporting := by decide
  have hunk : research.toRankedSourceType "unknown" = .unknown := by decide
  have hs1 : (research.to_ranked ⟨"t", "u", "s", "reporting"⟩).weighted_score
      = 21/20 := by
    simp [research.to_ranked, hrep, search_ranking.SearchResult.weighted_score,
      search_ranking.SOURCE_WEIGHTS, search_ranking.PREFERENCE_BONUS]
    norm_num
  have hs2 : (research.to_ranked ⟨"t", "u", "s", "unknown"⟩).weighted_score
      = 1/2 := by
    simp [research.to_ranked, hunk, search_ranking.SearchResult.weighted_score,
      search_ranking.SOURCE_WEIGHTS, search_ranking.PREFERENCE_BONUS]
    norm_num
  refine ⟨by decide, ?_, hs1, hs2⟩
  rw [hs1, hs2]
  norm_num

/-- C7 (amended): a source-type label not present in the preference table
ranks last in the stable preference sort — its rank is the table length,
strictly above every listed label's rank, so in the sorted output no listed
label follows it.  In the weighted scoring pass, the unlisted label is
treated as "unknown" (and hence receives the same lowest weighted score as
an unknown result) exactly when its uppercase form is not one of the
`SourceType` member names OFFICIAL / REPORTING / COMMUNITY / UNKNOWN;
unlisted labels such as "reporting" or "Official" that match a member name
keep that member's weight instead. -/
theorem source_unlisted_ranks_last (label : String)
    (hn : label ∉ research.SOURCE_PREFERENCE_ORDER) :
    research.preference_rank label = research.SOURCE_PREFERENCE_ORDER.length ∧
    (∀ listed ∈ research.SOURCE_PREFERENCE_ORDER,
      research.preference_rank listed < research.preference_rank label) ∧
    (∀ results i j (hi : i < (research.filter_by_preference results).length)
        (hj : j < (research.filter_by_preference results).length), i < j →
      ((research.filter_by_preference results).get ⟨i, hi⟩).source_type = label →
      ((research.filter_by_preference results).get ⟨j, hj⟩).source_type ∉
        research.SOURCE_PREFERENCE_ORDER) ∧
    (pyUpper label ∉ ["OFFICIAL", "REPORTING", "COMMUNITY", "UNKNOWN"] →
      research.toRankedSourceType label = .unknown ∧
      ∀ result : research.SearchResult, result.source_type = label →
        (research.to_ranked result).weighted_score =
          (research.to_ranked
            { result with source_type := "unknown" }).weighted_score) := by
  have hrank := preference_rank_of_not_mem label hn
  refine ⟨hrank, fun listed hl => ?_, fun results i j hi hj hij hlab => ?_,
    fun hup => ?_⟩
  · rw [hrank]
    exact preference_rank_lt_of_mem listed hl
  · intro hmem
    have hsorted := (filter_by_preference_stable results).1
    have hle := List.pairwise_iff_get.mp hsorted ⟨i, hi⟩ ⟨j, hj⟩ hij
    rw [hlab, hrank] at hle
    exact absurd (lt_of_le_of_lt hle (preference_rank_lt_of_mem _ hmem))
      (lt_irrefl _)
  · have h1 : pyUpper label ≠ "OFFICIAL" := fun h => hup (by rw [h]; decide)
    have h2 : pyUpper label ≠ "REPORTING" := fun h => hup (by rw [h]; decide)
    have h3 : pyUpper label ≠ "COMMUNITY" := fun h => hup (by rw [h]; decide)
    have h4 : pyUpper label ≠ "UNKNOWN" := fun h => hup (by rw [h]; decide)
    have htr : research.toRankedSourceType label = .unknown := by
      rw [research.toRankedSourceType, if_neg h1, if_neg h2, if_neg h3, if_neg h4]
    have hun : research.toRankedSourceType "unknown" = .unknown := by decide
    refine ⟨htr, fun result hres => ?_⟩
    simp [research.to_ranked, search_ranking.SearchResult.weighted_score,
      hres, htr, hun]

/-- Witness for the amended C7 at the unlisted label "blog". -/
theorem source_unlisted_ranks_last_witness :
    research.preference_rank "blog" = research.SOURCE_PREFERENCE_ORDER.length ∧
    research.toRankedSourceType "blog" = .unknown :=
  ⟨(source_unlisted_ranks_last "blog" (by decide)).1,
   ((source_unlisted_ranks_last "blog" (by decide)).2.2.2 (by decide)).1⟩

/-- Helper: the inner findings loop produces one finding per item, with ids
"F<counter>", "F<counter+1>", ..., and returns the counter advanced by the
number of items. -/
theorem findingsForPass_ids (items : List research.SearchResult) :
    ∀ counter : Nat,
      ((runtime.findingsForPass counter items).1).map (fun f => f.id) =
        (List.range items.length).map (fun i => "F" ++ toString (counter + i)) ∧
      (runtime.findingsForPass counter items).2 = counter + items.length := by
  induction items with
  | nil => intro counter; simp [runtime.findingsForPass]
  | cons item rest ih =>
    intro counter
    obtain ⟨ih1, ih2⟩ := ih (counter + 1)
    refine ⟨?_, ?_⟩
    · simp only [runtime.findingsForPass, List.map_cons, ih1,
        List.length_cons, List.range_succ_eq_map, List.map_map]
      congr 1
      apply List.map_congr_left
      intro i _
      simp only [Function.comp_apply]
      have hadd : counter + 1 + i = counter + Nat.succ i := by omega
      rw [hadd]
    · simp only [runtime.findingsForPass, ih2, List.length_cons]
      omega

/-- Helper: the outer findings loop concatenates the per-pass findings with a
running counter, so its ids are "F<counter>", "F<counter+1>", ... across the
whole traversal. -/
theorem buildFindingsGo_ids (research_results : List runtime.PassResult) :
    ∀ counter : Nat,
      (runtime.buildFindingsGo counter research_results).map (fun f => f.id) =
        (List.range
          ((research_results.map (fun r => r.preferred.length)).sum)).map
          (fun i => "F" ++ toString (counter + i)) := by
  induction research_results with
  | nil => intro counter; simp [runtime.buildFindingsGo]
  | cons result rest ih =>
    intro counter
    obtain ⟨h1, h2⟩ := findingsForPass_ids result.preferred counter
    simp only [runtime.buildFindingsGo, List.map_append, h1, h2, ih,
      List.map_cons, List.sum_cons, List.range_add, List.map_map]
    congr 1
    apply List.map_congr_left
    intro i _
    have : counter + result.preferred.length + i
        = counter + (result.preferred.length + i) := by omega
    simp [Function.comp, this]

/-- C4: evidence assembly over any list of research pass results yields
findings with sequential identifiers "F1", "F2", ... in traversal order (no
finding is dropped, even for an empty snippet: the count equals the total
number of preferred items), and evidence 1:1 with findings — equal lengths,
`evidence[i].id = "E" ++ findings[i].id`,
`evidence[i].source_id = findings[i].id`, and each evidence claim is the
finding's first key point, falling back to its snippet, falling back to its
title. -/
theorem evidence_assembly (research_results : List runtime.PassResult) :
    (runtime.build_findings research_results).length =
      ((research_results.map (fun r => r.preferred.length)).sum) ∧
    (∀ i (h : i < (runtime.build_findings research_results).length),
      ((runtime.build_findings research_results).get ⟨i, h⟩).id =
        "F" ++ toString (i + 1)) ∧
    (runtime.build_evidence (runtime.build_findings research_results)).length =
      (runtime.build_findings research_results).length ∧
    (∀ i (hi : i <
        (runtime.build_evidence (runtime.build_findings research_results)).length)
        (hf : i < (runtime.build_findings research_results).length),
      ((runtime.build_evidence
          (runtime.build_findings research_results)).get ⟨i, hi⟩).id =
        "E" ++ ((runtime.build_findings research_results).get ⟨i, hf⟩).id ∧
      ((runtime.build_evidence
          (runtime.build_findings research_results)).get ⟨i, hi⟩).source_id =
        ((runtime.build_findings research_results).get ⟨i, hf⟩).id ∧
      ((runtime.build_evidence
          (runtime.build_findings research_results)).get ⟨i, hi⟩).claim =
        (match ((runtime.build_findings research_results).get ⟨i, hf⟩).key_points
          with
          | point :: _ => point
          | [] => pyOr
              ((runtime.build_findings research_results).get ⟨i, hf⟩).snippet
              ((runtime.build_findings research_results).get ⟨i, hf⟩).title)) := by
  have hids := buildFindingsGo_ids research_results 1
  have hlen : (runtime.build_findings research_results).length =
      ((research_results.map (fun r => r.preferred.length)).sum) := by
    have := congrArg List.length hids
    simpa [runtime.build_findings] using this
  refine ⟨hlen, fun i h => ?_, by simp [runtime.build_evidence], fun i hi hf => ?_⟩
  · have hmap := congrArg (fun l => l[i]?) hids
    simp only [List.getElem?_map] at hmap
    have hib : i < (runtime.buildFindingsGo 1 research_results).length := h
    have hir : i < ((research_results.map (fun r => r.preferred.length)).sum) :=
      hlen ▸ h
    rw [List.getElem?_eq_getElem hib, List.getElem?_eq_getElem
      (by simpa [List.length_range] using hir)] at hmap
    simp only [Option.map_some, Option.some_inj, List.getElem_range] at hmap
    have : ((runtime.build_findings research_results).get ⟨i, h⟩).id =
        "F" ++ toString (1 + i) := by
      simpa [runtime.build_findings, List.get_eq_getElem] using hmap
    rw [this, Nat.add_comm]
  · refine ⟨?_, ?_, ?_⟩ <;> simp [runtime.build_evidence]

/-- Witness for C4 on one pass whose single preferred item has an empty
title and empty snippet: the finding is not dropped, its id is "F1", and its
evidence points back at it. -/
theorem evidence_assembly_witness :
    (runtime.build_findings [⟨[⟨"", "u1", "", "unknown"⟩]⟩]).length = 1 ∧
    ((runtime.build_findings [⟨[⟨"", "u1", "", "unknown"⟩]⟩]).get
      ⟨0, by decide⟩).id = "F" ++ toString (0 + 1) ∧
    ((runtime.build_evidence
        (runtime.build_findings [⟨[⟨"", "u1", "", "unknown"⟩]⟩])).get
      ⟨0, by decide⟩).source_id =
      ((runtime.build_findings [⟨[⟨"", "u1", "", "unknown"⟩]⟩]).get
        ⟨0, by decide⟩).id :=
  ⟨(evidence_assembly [⟨[⟨"", "u1", "", "unknown"⟩]⟩]).1,
   (evidence_assembly [⟨[⟨"", "u1", "", "unknown"⟩]⟩]).2.1 0 (by decide),
   ((evidence_assembly [⟨[⟨"", "u1", "", "unknown"⟩]⟩]).2.2.2 0
     (by decide) (by decide)).2.1⟩

/-- C8 counterexample: when persisting the completed state raises (the task
storage logs and re-raises on failure, and the persist call sits inside the
background worker's try-block after the completed status was cached), the
written status sequence is queued, running, writing, validating, completed,
failed — which contains a transition out of completed, so it does not
satisfy the claimed transition relation. -/
theorem async_lifecycle_counterexample :
    main.process_task_trace true true false =
      [.queued, .running, .writing, .validating, .completed, .failed] ∧
    ¬ List.Chain' main.spec_allows (main.process_task_trace true true false) := by
  refine ⟨rfl, fun hch => ?_⟩
  rw [show main.process_task_trace true true false =
    [.queued, .running, .writing, .validating, .completed, .failed] from rfl] at hch
  simp [List.chain'_cons, main.spec_allows] at hch

/-- C8 (amended): every status sequence written by the lifecycle manager is
monotonic along queued → running → writing → validating → completed with
failed reachable from running, writing and validating, plus the single
completed → failed transition that occurs exactly when persisting the
completed state fails; a task never moves from queued directly to a terminal
state (the only successor of queued is running), and there is no transition
out of failed. -/
theorem async_lifecycle_transitions
    (running_save_ok research_ok completed_save_ok : Bool) :
    List.Chain' main.code_allows
      (main.process_task_trace running_save_ok research_ok completed_save_ok) ∧
    (main.process_task_trace running_save_ok research_ok completed_save_ok).head?
      = some .queued ∧
    (∀ p ∈ (main.process_task_trace running_save_ok research_ok
          completed_save_ok).zip
        (main.process_task_trace running_save_ok research_ok
          completed_save_ok).tail,
      (p.1 = main.TaskStatus.queued → p.2 = main.TaskStatus.running) ∧
      p.1 ≠ main.TaskStatus.failed ∧
      (p.1 = main.TaskStatus.completed →
        p.2 = main.TaskStatus.failed ∧ completed_save_ok = false)) := by
  cases running_save_ok <;> cases research_ok <;> cases completed_save_ok <;>
    refine ⟨?_, rfl, ?_⟩ <;>
    simp [main.process_task_trace, List.chain'_cons, main.code_allows,
      main.spec_allows]

/-- Witness for the amended C8: the fully successful execution path yields a
trace satisfying the realised transition relation. -/
theorem async_lifecycle_transitions_witness :
    List.Chain' main.code_allows (main.process_task_trace true true true) :=
  (async_lifecycle_transitions true true true).1

/-- Helper: one-step unfolding of the retry loop with no fuel left. -/
theorem retryLoop_zero {α : Type} (cfg : orchestrator.RetryConfig)
    (stage : String) (op : Nat → Except orchestrator.PyError α)
    (attempt : Nat) (le : Option orchestrator.PyError) :
    orchestrator.retryLoop cfg stage op 0 attempt le =
      ⟨.error (orchestrator.aggregatedError cfg stage le), attempt, []⟩ := rfl

/-- Helper: one-step unfolding of the retry loop with fuel remaining. -/
theorem retryLoop_succ {α : Type} (cfg : orchestrator.RetryConfig)
    (stage : String) (op : Nat → Except orchestrator.PyError α)
    (fuel attempt : Nat) (le : Option orchestrator.PyError) :
    orchestrator.retryLoop cfg stage op (fuel + 1) attempt le =
      match op (attempt + 1) with
      | .ok result => ⟨.ok result, attempt + 1, []⟩
      | .error exc =>
        let rest := orchestrator.retryLoop cfg stage op fuel (attempt + 1)
          (some exc)
        if attempt + 1 < cfg.max_attempts then
          { rest with
            sleeps := cfg.backoff_factor * 2 ^ attempt :: rest.sleeps }
        else rest := rfl

/-- Helper: if the `f` attempts after attempt number `attempt` fail and
attempt `attempt + f + 1` succeeds (all within `max_attempts`), the retry
loop returns that success, having made `attempt + f + 1` attempts and slept
`f` times, the sleep after attempt `k` lasting
`backoff_factor * 2 ^ (k - 1)`. -/
theorem retryLoop_ok_spec {α : Type} (cfg : orchestrator.RetryConfig)
    (stage : String) (op : Nat → Except orchestrator.PyError α)
    (e : Nat → orchestrator.PyError) (v : α) :
    ∀ (f attempt : Nat) (le : Option orchestrator.PyError),
      attempt + f + 1 ≤ cfg.max_attempts →
      (∀ j, attempt + 1 ≤ j → j ≤ attempt + f → op j = .error (e j)) →
      op (attempt + f + 1) = .ok v →
      orchestrator.retryLoop cfg stage op (cfg.max_attempts - attempt) attempt le
        = ⟨.ok v, attempt + f + 1,
          (List.range f).map (fun i => cfg.backoff_factor * 2 ^ (attempt + i))⟩ := by
  intro f
  induction f with
  | zero =>
    intro attempt le hle _ hok
    have hone : attempt + 0 + 1 = attempt + 1 := by omega
    rw [hone] at hok
    obtain ⟨fuel, hfuel⟩ : ∃ fuel, cfg.max_attempts - attempt = fuel + 1 :=
      ⟨cfg.max_attempts - attempt - 1, by omega⟩
    rw [hfuel]
    simp [orchestrator.retryLoop, hok]
  | succ f ih =>
    intro attempt le hle hfail hok
    have h1 : op (attempt + 1) = .error (e (attempt + 1)) :=
      hfail (attempt + 1) (by omega) (by omega)
    obtain ⟨fuel, hfuel⟩ : ∃ fuel, cfg.max_attempts - attempt = fuel + 1 :=
      ⟨cfg.max_attempts - attempt - 1, by omega⟩
    have hfuel2 : cfg.max_attempts - (attempt + 1) = fuel := by omega
    have hlt : attempt + 1 < cfg.max_attempts := by omega
    have hih := ih (attempt + 1) (some (e (attempt + 1))) (by omega)
      (fun j hj1 hj2 => hfail j (by omega) (by omega))
      (by
        have harr : attempt + 1 + f + 1 = attempt + (f + 1) + 1 := by omega
        rw [harr]
        exact hok)
    rw [hfuel2] at hih
    rw [hfuel, retryLoop_succ, h1]
    dsimp only
    rw [if_pos hlt, hih]
    have hatt : attempt + (f + 1) + 1 = attempt + 1 + f + 1 := by omega
    have hsl : (List.range (f + 1)).map
        (fun i => cfg.backoff_factor * 2 ^ (attempt + i)) =
        cfg.backoff_factor * 2 ^ attempt ::
          (List.range f).map
            (fun i => cfg.backoff_factor * 2 ^ (attempt + 1 + i)) := by
      rw [List.range_succ_eq_map, List.map_cons, List.map_map]
      congr 1
      apply List.map_congr_left
      intro i _
      simp only [Function.comp_apply]
      have harr : attempt + Nat.succ i = attempt + 1 + i := by omega
      rw [harr]
    rw [hatt, hsl]

/-- Helper: if every attempt from `attempt + 1` up to `max_attempts` fails,
the retry loop (entered with `fuel = max_attempts - attempt` remaining
attempts) raises the aggregated error built from the last attempt's
exception, having made `max_attempts` attempts and slept `fuel - 1` times. -/
theorem retryLoop_err_spec {α : Type} (cfg : orchestrator.RetryConfig)
    (stage : String) (op : Nat → Except orchestrator.PyError α)
    (e : Nat → orchestrator.PyError) :
    ∀ (fuel attempt : Nat) (le : Option orchestrator.PyError),
      fuel + attempt = cfg.max_attempts → 0 < fuel →
      (∀ j, attempt + 1 ≤ j → j ≤ cfg.max_attempts → op j = .error (e j)) →
      orchestrator.retryLoop cfg stage op fuel attempt le =
        ⟨.error (orchestrator.aggregatedError cfg stage
            (some (e cfg.max_attempts))),
          cfg.max_attempts,
          (List.range (fuel - 1)).map
            (fun i => cfg.backoff_factor * 2 ^ (attempt + i))⟩ := by
  intro fuel
  induction fuel with
  | zero =>
    intro attempt le _ hpos _
    exact absurd hpos (lt_irrefl 0)
  | succ n ih =>
    intro attempt le hsum hpos hfail
    have h1 : op (attempt + 1) = .error (e (attempt + 1)) :=
      hfail (attempt + 1) (by omega) (by omega)
    cases n with
    | zero =>
      have hmax : attempt + 1 = cfg.max_attempts := by omega
      have hnlt : ¬ (attempt + 1 < cfg.max_attempts) := by omega
      rw [retryLoop_succ, h1]
      dsimp only
      rw [if_neg hnlt, retryLoop_zero, hmax]
      simp
    | succ m =>
      have hlt : attempt + 1 < cfg.max_attempts := by omega
      have hih := ih (attempt + 1) (some (e (attempt + 1))) (by omega) (by omega)
        (fun j hj1 hj2 => hfail j (by omega) hj2)
      have hm2 : m + 1 - 1 = m := by omega
      rw [hm2] at hih
      rw [retryLoop_succ, h1]
      dsimp only
      rw [if_pos hlt, hih]
      have hm : m + 1 + 1 - 1 = m + 1 := by omega
      rw [hm]
      have hsl : (List.range (m + 1)).map
          (fun i => cfg.backoff_factor * 2 ^ (attempt + i)) =
          cfg.backoff_factor * 2 ^ attempt ::
            (List.range m).map
              (fun i => cfg.backoff_factor * 2 ^ (attempt + 1 + i)) := by
        rw [List.range_succ_eq_map, List.map_cons, List.map_map]
        congr 1
        apply List.map_congr_left
        intro i _
        simp only [Function.comp_apply]
        have harr : attempt + Nat.succ i = attempt + 1 + i := by omega
        rw [harr]
      rw [hsl]

/-- C1: for every stage name and operation, the stage executor
`_call_with_controls` (a) returns the operation's value on a first-attempt
success with one attempt made and no sleep; (b) when the operation fails on
attempts 1 .. max_attempts - 1 and then succeeds, returns the success value
after exactly max_attempts attempts and max_attempts - 1 backoff sleeps,
where the i-th sleep (counted from 0, occurring after attempt i + 1) lasts
backoff_factor * 2 ^ i and no sleep follows the final attempt; and (c) when
every attempt fails, makes exactly max_attempts attempts and raises a single
OrchestrationError whose message names the stage, the attempt count, and the
last underlying error's type and message. -/
theorem stage_executor_retry {α : Type} (cfg : orchestrator.RetryConfig)
    (stage : String) (op : Nat → Except orchestrator.PyError α)
    (e : Nat → orchestrator.PyError) (v : α)
    (hmax : 1 ≤ cfg.max_attempts) :
    (op 1 = .ok v →
      orchestrator.callWithControls cfg stage op = ⟨.ok v, 1, []⟩) ∧
    ((∀ j, 1 ≤ j → j ≤ cfg.max_attempts - 1 → op j = .error (e j)) →
      op cfg.max_attempts = .ok v →
      orchestrator.callWithControls cfg stage op =
        ⟨.ok v, cfg.max_attempts,
          (List.range (cfg.max_attempts - 1)).map
            (fun i => cfg.backoff_factor * 2 ^ i)⟩) ∧
    ((∀ j, 1 ≤ j → j ≤ cfg.max_attempts → op j = .error (e j)) →
      orchestrator.callWithControls cfg stage op =
        ⟨.error ⟨stage ++ " agent failed after " ++ toString cfg.max_attempts
            ++ " attempts: " ++ (e cfg.max_attempts).exc_type ++ ": "
            ++ (e cfg.max_attempts).exc_msg⟩,
          cfg.max_attempts,
          (List.range (cfg.max_attempts - 1)).map
            (fun i => cfg.backoff_factor * 2 ^ i)⟩) := by
  have hz : (List.range (cfg.max_attempts - 1)).map
      (fun i => cfg.backoff_factor * 2 ^ (0 + i)) =
      (List.range (cfg.max_attempts - 1)).map
        (fun i => cfg.backoff_factor * 2 ^ i) := by
    apply List.map_congr_left
    intro i _
    rw [Nat.zero_add]
  refine ⟨fun hok => ?_, fun hfail hok => ?_, fun hfail => ?_⟩
  · have h := retryLoop_ok_spec cfg stage op e v 0 0 none (by omega)
      (by omega) (by simpa using hok)
    rw [orchestrator.callWithControls]
    rw [Nat.sub_zero] at h
    rw [h]
    simp
  · have heq : 0 + (cfg.max_attempts - 1) + 1 = cfg.max_attempts := by omega
    have h := retryLoop_ok_spec cfg stage op e v (cfg.max_attempts - 1) 0 none
      (by omega) (fun j hj1 hj2 => hfail j (by omega) (by omega))
      (by rw [heq]; exact hok)
    rw [orchestrator.callWithControls]
    rw [Nat.sub_zero, heq, hz] at h
    exact h
  · have h := retryLoop_err_spec cfg stage op e cfg.max_attempts 0 none
      (by omega) (by omega) (fun j hj1 hj2 => hfail j hj1 hj2)
    rw [hz] at h
    rw [orchestrator.callWithControls, h]
    rfl

/-- Witness for C1: with the default retry configuration (3 attempts,
backoff factor 1/2) and an operation that always raises `ValueError: boom`,
the executor makes 3 attempts, sleeps twice, and raises the aggregated
orchestration error naming the stage, attempt count and underlying error. -/
theorem stage_executor_retry_witness :
    1 ≤ ({} : orchestrator.RetryConfig).max_attempts ∧
    orchestrator.callWithControls {} "router"
      (fun _ => (.error ⟨"ValueError", "boom"⟩ :
        Except orchestrator.PyError Nat)) =
      ⟨.error ⟨"router agent failed after 3 attempts: ValueError: boom"⟩, 3,
        (List.range (({} : orchestrator.RetryConfig).max_attempts - 1)).map
          (fun i => ({} : orchestrator.RetryConfig).backoff_factor * 2 ^ i)⟩ :=
  ⟨by decide,
   (stage_executor_retry {} "router"
      (fun _ => (.error ⟨"ValueError", "boom"⟩ :
        Except orchestrator.PyError Nat))
      (fun _ => ⟨"ValueError", "boom"⟩) 0
      (by decide)).2.2 (fun _ _ _ => rfl)⟩

/-- Helper: success characterization of `Except` bind. -/
theorem except_bind_ok {ε α β : Type} (x : Except ε α) (f : α → Except ε β)
    (b : β) :
    x >>= f = .ok b ↔ ∃ a, x = .ok a ∧ f a = .ok b := by
  cases x <;> simp [Bind.bind, Except.bind]

/-- Helper: bind on a success value reduces to an application. -/
theorem except_ok_bind {ε α β : Type} (a : α) (f : α → Except ε β) :
    (Except.ok a : Except ε α) >>= f = f a := rfl

/-- Helper: a successful `mapM` over `Except` yields one output per input,
the i-th output being the success value of the function on the i-th input. -/
theorem mapM_ok_spec {ε α β : Type} (f : α → Except ε β) :
    ∀ (l : List α) (rs : List β), l.mapM f = .ok rs →
      rs.length = l.length ∧
      ∀ i (hl : i < l.length) (hr : i < rs.length),
        f (l.get ⟨i, hl⟩) = .ok (rs.get ⟨i, hr⟩) := by
  intro l
  induction l with
  | nil =>
    intro rs h
    rw [List.mapM_nil] at h
    have hrs : rs = [] := (Except.ok.inj h).symm
    subst hrs
    exact ⟨rfl, fun i hl _ => absurd hl (by simp)⟩
  | cons a l ih =>
    intro rs h
    rw [List.mapM_cons] at h
    rcases (except_bind_ok _ _ _).mp h with ⟨b, hb, h2⟩
    rcases (except_bind_ok _ _ _).mp h2 with ⟨bs, hbs, h3⟩
    have hrs : rs = b :: bs := (Except.ok.inj h3).symm
    subst hrs
    obtain ⟨hlen, hget⟩ := ih bs hbs
    refine ⟨by simp [hlen], fun i hl hr => ?_⟩
    cases i with
    | zero => simpa using hb
    | succ n =>
      simpa using hget n (by simpa using hl) (by simpa using hr)

/-- Helper: the retry loop commutes with mapping a function over the
operation's success values: attempts and sleeps are unchanged, the result is
mapped. -/
theorem retryLoop_map {α β : Type} (cfg : orchestrator.RetryConfig)
    (stage : String) (op : Nat → Except orchestrator.PyError α)
    (op2 : Nat → Except orchestrator.PyError β) (g : α → β)
    (hop2 : ∀ n, op2 n = (op n).map g) :
    ∀ (fuel attempt : Nat) (le : Option orchestrator.PyError),
      orchestrator.retryLoop cfg stage op2 fuel attempt le =
        ⟨(orchestrator.retryLoop cfg stage op fuel attempt le).result.map g,
          (orchestrator.retryLoop cfg stage op fuel attempt le).attemptsMade,
          (orchestrator.retryLoop cfg stage op fuel attempt le).sleeps⟩ := by
  intro fuel
  induction fuel with
  | zero =>
    intro attempt le
    rw [retryLoop_zero, retryLoop_zero]
    rfl
  | succ n ih =>
    intro attempt le
    rw [retryLoop_succ, retryLoop_succ]
    cases hop : op (attempt + 1) with
    | ok v =>
      have h2 : op2 (attempt + 1) = .ok (g v) := by rw [hop2, hop]; rfl
      rw [h2]
      rfl
    | error exc =>
      have h2 : op2 (attempt + 1) = .error exc := by rw [hop2, hop]; rfl
      rw [h2]
      dsimp only
      rw [ih]
      by_cases hlt : attempt + 1 < cfg.max_attempts
      · rw [if_pos hlt, if_pos hlt]
      · rw [if_neg hlt, if_neg hlt]

/-- Helper: `callWithControls` commutes with mapping the operation's success
values. -/
theorem callWithControls_map {α β : Type} (cfg : orchestrator.RetryConfig)
    (stage : String) (op : Nat → Except orchestrator.PyError α) (g : α → β) :
    (orchestrator.callWithControls cfg stage (fun n => (op n).map g)).result =
      (orchestrator.callWithControls cfg stage op).result.map g := by
  rw [orchestrator.callWithControls, orchestrator.callWithControls,
    retryLoop_map cfg stage op (fun n => (op n).map g) g (fun n => rfl)]

/-- C3: on every request on which `Orchestrator.run` succeeds, the returned
`research_results` list has length exactly `plan.passes`, its i-th element
is the value of the research stage invoked with pass index i (so elements
appear in strictly increasing pass-index order, pass 0 first), and every
research invocation receives the same single persisted task —
`plan.tasks[0]` when the plan has tasks, otherwise none — shared across all
passes. -/
theorem orchestrator_research_passes {μ ρ ω : Type}
    (o : orchestrator.Orchestrator μ ρ ω)
    (request : orchestrator.NormalizedRequest μ)
    (out : orchestrator.RunResult μ ρ ω)
    (h : o.run request = .ok out) :
    out.plan =
      (orchestrator.DepthPolicy.ofDepth out.decision.depth).build_plan ∧
    out.research_results.length = out.plan.passes ∧
    ∃ clarified_request,
      o.clarifiedRequest request out.decision = .ok clarified_request ∧
      ∀ i (hp : i < out.plan.passes) (hr : i < out.research_results.length),
        o.call_with_controls "researcher"
          (o.researcher_agent clarified_request out.decision out.plan i
            out.plan.tasks.head?) =
          .ok (out.research_results.get ⟨i, hr⟩) := by
  rw [orchestrator.Orchestrator.run] at h
  rcases (except_bind_ok _ _ _).mp h with ⟨d, hd, h⟩
  rcases (except_bind_ok _ _ _).mp h with ⟨creq, hcreq, h⟩
  rcases (except_bind_ok _ _ _).mp h with ⟨results, hres, h⟩
  rcases (except_bind_ok _ _ _).mp h with ⟨w, hw, h⟩
  have hout : out = ⟨d,
      (orchestrator.DepthPolicy.ofDepth d.depth).build_plan, results,
      ⟨orchestrator.resolve_quality w.quality, w.payload⟩⟩ := by
    simpa [pure, Except.pure] using h.symm
  subst hout
  obtain ⟨hlen, hget⟩ := mapM_ok_spec _ _ _ hres
  refine ⟨rfl, by simpa using hlen, creq, hcreq, fun i hp hr => ?_⟩
  have hcall := hget i (by simpa using hp) hr
  simpa [List.get_eq_getElem, List.getElem_range] using hcall

/-- Witness for C3: the demonstration orchestrator routes to depth "deep",
and its successful run carries exactly `passes = 3` research results. -/
theorem orchestrator_research_passes_witness :
    orchestrator.demoOrchestrator.run orchestrator.demoRequest =
      .ok orchestrator.demoRun ∧
    orchestrator.demoRun.research_results.length =
      orchestrator.demoRun.plan.passes :=
  ⟨rfl,
   (orchestrator_research_passes orchestrator.demoOrchestrator
      orchestrator.demoRequest orchestrator.demoRun rfl).2.1⟩

/-- C9: on every successful run, the orchestrator keeps a quality report
supplied by the composition (writer) stage unchanged, and when the writer
output lacks a quality report it does not fail: it synthesizes the neutral
placeholder report with citation_coverage_score 0.8 and
template_completeness_score 0.7, an empty missing_sections list, and
uncited_numbers and contradictions both false.  The last conjunct shows the
fallback-over-failure policy directly: stripping the quality report from the
writer output leaves the run succeeding, with the placeholder substituted
and everything else unchanged. -/
theorem orchestrator_quality_fallback {μ ρ ω : Type}
    (o : orchestrator.Orchestrator μ ρ ω)
    (request : orchestrator.NormalizedRequest μ)
    (out : orchestrator.RunResult μ ρ ω)
    (h : o.run request = .ok out) :
    (∃ clarified_request written_output,
      o.clarifiedRequest request out.decision = .ok clarified_request ∧
      o.call_with_controls "writer"
        (o.writer_agent ⟨out.decision, out.plan, out.research_results,
          clarified_request⟩) = .ok written_output ∧
      out.output.payload = written_output.payload ∧
      out.output.quality =
        orchestrator.resolve_quality written_output.quality ∧
      (∀ q, written_output.quality = .report q → out.output.quality = q) ∧
      (written_output.quality = .nonReport →
        out.output.quality = orchestrator.neutral_quality_report)) ∧
    orchestrator.neutral_quality_report.citation_coverage_score = 8/10 ∧
    orchestrator.neutral_quality_report.template_completeness_score = 7/10 ∧
    orchestrator.neutral_quality_report.missing_sections = [] ∧
    orchestrator.neutral_quality_report.uncited_numbers = false ∧
    orchestrator.neutral_quality_report.contradictions = false ∧
    (orchestrator.stripQuality o).run request =
      .ok ⟨out.decision, out.plan, out.research_results,
        ⟨orchestrator.neutral_quality_report, out.output.payload⟩⟩ := by
  rw [orchestrator.Orchestrator.run] at h
  rcases (except_bind_ok _ _ _).mp h with ⟨d, hd, h⟩
  rcases (except_bind_ok _ _ _).mp h with ⟨creq, hcreq, h⟩
  rcases (except_bind_ok _ _ _).mp h with ⟨results, hres, h⟩
  rcases (except_bind_ok _ _ _).mp h with ⟨w, hw, h⟩
  have hout : out = ⟨d,
      (orchestrator.DepthPolicy.ofDepth d.depth).build_plan, results,
      ⟨orchestrator.resolve_quality w.quality, w.payload⟩⟩ := by
    simpa [pure, Except.pure] using h.symm
  subst hout
  refine ⟨⟨creq, w, hcreq, hw, rfl, rfl, fun q hq => ?_, fun hq => ?_⟩,
    rfl, rfl, rfl, rfl, rfl, ?_⟩
  · simp [orchestrator.resolve_quality, hq]
  · simp [orchestrator.resolve_quality, hq]
  · have hd2 : (orchestrator.stripQuality o).call_with_controls "router"
        ((orchestrator.stripQuality o).router_agent request) = .ok d := hd
    have hcreq2 : (orchestrator.stripQuality o).clarifiedRequest request d =
        .ok creq := hcreq
    have hres2 : (List.range
        ((orchestrator.DepthPolicy.ofDepth d.depth).build_plan).passes).mapM
        (fun idx => (orchestrator.stripQuality o).call_with_controls
          "researcher"
          ((orchestrator.stripQuality o).researcher_agent creq d
            (orchestrator.DepthPolicy.ofDepth d.depth).build_plan idx
            ((orchestrator.DepthPolicy.ofDepth d.depth).build_plan).tasks.head?))
        = .ok results := hres
    have hw2 : (orchestrator.stripQuality o).call_with_controls "writer"
        ((orchestrator.stripQuality o).writer_agent
          ⟨d, (orchestrator.DepthPolicy.ofDepth d.depth).build_plan, results,
            creq⟩)
        = .ok ⟨.nonReport, w.payload⟩ := by
      show (orchestrator.callWithControls o.retry_config "writer"
          (fun n => (o.writer_agent
            ⟨d, (orchestrator.DepthPolicy.ofDepth d.depth).build_plan, results,
              creq⟩ n).map
            (fun w' => (⟨.nonReport, w'.payload⟩ :
              orchestrator.WrittenOutput ω)))).result =
        Except.ok (⟨.nonReport, w.payload⟩ : orchestrator.WrittenOutput ω)
      rw [callWithControls_map]
      rw [show (orchestrator.callWithControls o.retry_config "writer"
          (o.writer_agent ⟨d,
            (orchestrator.DepthPolicy.ofDepth d.depth).build_plan, results,
            creq⟩)).result = .ok w from hw]
      rfl
    rw [orchestrator.Orchestrator.run, hd2]
    simp only [except_ok_bind]
    rw [hcreq2]
    simp only [except_ok_bind]
    rw [hres2]
    simp only [except_ok_bind]
    rw [hw2]
    simp only [except_ok_bind]
    rfl

/-- Witness for C9: the demonstration orchestrator whose writer supplies no
quality report still runs successfully and carries the neutral placeholder
report; stripping quality from any writer output likewise succeeds. -/
theorem orchestrator_quality_fallback_witness :
    orchestrator.demoOrchestratorNoQuality.run orchestrator.demoRequest =
      .ok orchestrator.demoRunNoQuality ∧
    (orchestrator.stripQuality orchestrator.demoOrchestratorNoQuality).run
        orchestrator.demoRequest =
      .ok ⟨orchestrator.demoRunNoQuality.decision,
        orchestrator.demoRunNoQuality.plan,
        orchestrator.demoRunNoQuality.research_results,
        ⟨orchestrator.neutral_quality_report,
          orchestrator.demoRunNoQuality.output.payload⟩⟩ :=
  ⟨rfl,
   (orchestrator_quality_fallback orchestrator.demoOrchestratorNoQuality
      orchestrator.demoRequest orchestrator.demoRunNoQuality
      rfl).2.2.2.2.2.2⟩
